import Mathlib

/-!
Verification of the ledger-to-position accounting engine of the
US Stock Portfolio Tracker (src/pages/Dashboard.tsx, src/types.ts).

Monetary quantities (cash, shares, price) are embedded as rationals.
JavaScript object maps (`transactions`, the `pos` map of
`calculatePositions`) are embedded as association lists that preserve
JavaScript insertion-order update semantics: an update of an existing
key keeps its place, a new key is appended at the end.
-/

namespace Portfolio

/-- Transaction kinds, from src/types.ts (`TransactionType`). -/
inductive TransactionType
  | BUY
  | SELL
  | DEPOSIT
  | WITHDRAWAL
deriving DecidableEq

/-- A transaction row, from src/types.ts (`Transaction`). -/
structure Transaction where
  id : String
  account_id : String
  user_id : String
  ticker : String
  companyName : String
  type : TransactionType
  shares : Rat
  price : Rat
  date : String
  notes : String
deriving DecidableEq

/-- An account, from src/types.ts (`Account`). -/
structure Account where
  id : String
  user_id : String
  name : String
  cash : Rat
deriving DecidableEq

/-- The in-memory portfolio snapshot, from src/types.ts (`PortfolioData`).
The `transactions` object is embedded as an association list. -/
structure PortfolioData where
  accounts : List Account
  transactions : List (String × List Transaction)
  activeAccountId : Option String
deriving DecidableEq

/-- JavaScript object update `{...m, [k]: v}` / `m[k] = v`:
existing key updated in place, new key appended at the end. -/
def setKey {α : Type} : List (String × α) → String → α → List (String × α)
  | [], k, v => [(k, v)]
  | (k', v') :: rest, k, v =>
      if k' == k then (k, v) :: rest else (k', v') :: setKey rest k v

/-- JavaScript `delete m[k]`. -/
def eraseKey {α : Type} : List (String × α) → String → List (String × α)
  | [], _ => []
  | (k', v') :: rest, k =>
      if k' == k then eraseKey rest k else (k', v') :: eraseKey rest k

/-- JavaScript `m[k] || []` on the transaction map. -/
def lookupTxs (m : List (String × List Transaction)) (k : String) : List Transaction :=
  (m.lookup k).getD []

/-- `activeAccount` memo (Dashboard.tsx lines 163-166):
`portfolioData.accounts.find(a => a.id === portfolioData.activeAccountId) || null`. -/
def activeAccount (pd : PortfolioData) : Option Account :=
  match pd.activeAccountId with
  | none => none
  | some aid => pd.accounts.find? (fun a => a.id == aid)

/-- `activeTransactions` memo (Dashboard.tsx lines 168-171):
`portfolioData.transactions[activeAccount.id] || []`. -/
def activeTransactions (pd : PortfolioData) : List Transaction :=
  match activeAccount pd with
  | none => []
  | some acct => lookupTxs pd.transactions acct.id

/-- The cash balance of the active account, if any. -/
def cashOf (pd : PortfolioData) : Option Rat :=
  (activeAccount pd).map Account.cash

/-- Per-ticker aggregate of `calculatePositions`:
`{ shares, cost, companyName }`. -/
structure PosAgg where
  shares : Rat
  cost : Rat
  companyName : String
deriving DecidableEq

/-- Body of the `calculatePositions` loop (Dashboard.tsx lines 180-188)
for one transaction, acting on the aggregate of its ticker. A BUY adds
shares and cost; every other kind takes the SELL branch. The company
name is overwritten unconditionally at the end. -/
def applyTx (p : PosAgg) (tx : Transaction) : PosAgg :=
  let p1 :=
    if tx.type = TransactionType.BUY then
      { p with shares := p.shares + tx.shares, cost := p.cost + tx.shares * tx.price }
    else
      let costBasisPerShare := if p.shares > 0 then p.cost / p.shares else 0
      { p with cost := p.cost - tx.shares * costBasisPerShare,
               shares := p.shares - tx.shares }
  { p1 with companyName := tx.companyName }

/-- One iteration of `transactions.forEach` in `calculatePositions`
(Dashboard.tsx lines 176-189), including the lazy creation
`if (!pos[tx.ticker]) pos[tx.ticker] = {shares: 0, cost: 0, companyName: tx.companyName}`. -/
def calcStep (m : List (String × PosAgg)) (tx : Transaction) : List (String × PosAgg) :=
  let cur :=
    match m.lookup tx.ticker with
    | some p => p
    | none => { shares := 0, cost := 0, companyName := tx.companyName }
  setKey m tx.ticker (applyTx cur tx)

/-- `calculatePositions` (Dashboard.tsx lines 174-191): fold the loop
body over the transaction list starting from the empty map. -/
def calculatePositions (transactions : List Transaction) : List (String × PosAgg) :=
  transactions.foldl calcStep []

/-- Average cost as computed when building `newPositions`
(Dashboard.tsx line 218): `pos.shares > 0 ? pos.cost / pos.shares : 0`. -/
def avgCost (p : PosAgg) : Rat :=
  if p.shares > 0 then p.cost / p.shares else 0

/-- A displayed position (src/types.ts `Position`), as built by
`newPositions` (Dashboard.tsx lines 210-221). -/
structure Position where
  ticker : String
  companyName : String
  shares : Rat
  averageCost : Rat
  currentPrice : Rat
deriving DecidableEq

/-- Result of the `summaryData` memo (Dashboard.tsx lines 273-285). -/
structure SummaryData where
  totalMarketValue : Rat
  totalGainLoss : Rat
  totalGainLossPercent : Rat
  tradingCash : Rat
deriving DecidableEq

/-- `positions.reduce((acc, pos) => acc + pos.shares * pos.currentPrice, 0)`. -/
def totalMarketValue (positions : List Position) : Rat :=
  positions.foldl (fun acc pos => acc + pos.shares * pos.currentPrice) 0

/-- `positions.reduce((acc, pos) => acc + pos.shares * pos.averageCost, 0)`. -/
def totalCostBasis (positions : List Position) : Rat :=
  positions.foldl (fun acc pos => acc + pos.shares * pos.averageCost) 0

/-- `summaryData` (Dashboard.tsx lines 273-285); `cash` stands for
`activeAccount?.cash ?? 0`. -/
def summaryData (positions : List Position) (cash : Rat) : SummaryData :=
  let tmv := totalMarketValue positions
  let tcb := totalCostBasis positions
  let tgl := tmv - tcb
  { totalMarketValue := tmv
    totalGainLoss := tgl
    totalGainLossPercent := if tcb = 0 then 0 else tgl / tcb * 100
    tradingCash := cash }

/-- Remote-store writes issued by the handlers, in the order attempted.
Each write is paired with a Bool telling whether the store accepted it. -/
inductive RemoteOp
  | updateCash (accountId : String) (cash : Rat)
  | insertTx (tx : Transaction)
  | deleteTx (txId : String)
  | updateTxFields (txId : String) (shares price : Rat) (date notes : String)
  | deleteAccount (accountId : String)
deriving DecidableEq

/-- Cash delta applied by `handleAddTransaction` (Dashboard.tsx line 291):
`newTransaction.type === 'SELL' ? shares*price : -(shares*price)`. -/
def addCashDelta (tx : Transaction) : Rat :=
  if tx.type = TransactionType.SELL then tx.shares * tx.price else -(tx.shares * tx.price)

/-- Cash delta applied by `handleDeleteTransaction` (Dashboard.tsx line 358):
`deletingTransaction.type === 'BUY' ? shares*price : -(shares*price)`. -/
def delCashDelta (tx : Transaction) : Rat :=
  if tx.type = TransactionType.BUY then tx.shares * tx.price else -(tx.shares * tx.price)

/-- `accounts.map(acc => acc.id === updatedAccount.id ? updatedAccount : acc)`. -/
def replaceAccount (accounts : List Account) (upd : Account) : List Account :=
  accounts.map (fun acc => if acc.id == upd.id then upd else acc)

/-- `handleAddTransaction` (Dashboard.tsx lines 288-329). The two Bools
are the outcomes of the two remote writes (`cashOk` for the account-cash
update, `txOk` for the transaction insert); the trace of attempted
remote writes is returned together with the resulting local state. A
failed write aborts the handler (`if (error) return ...`), leaving the
local state untouched. -/
def handleAddTransaction (pd : PortfolioData) (cashOk txOk : Bool)
    (newTransaction : Transaction) : List (RemoteOp × Bool) × PortfolioData :=
  match activeAccount pd with
  | none => ([], pd)
  | some acct =>
    let newCash := acct.cash + addCashDelta newTransaction
    if cashOk = false then
      ([(RemoteOp.updateCash acct.id newCash, false)], pd)
    else if txOk = false then
      ([(RemoteOp.updateCash acct.id newCash, true),
        (RemoteOp.insertTx newTransaction, false)], pd)
    else
      let updatedAccount := { acct with cash := newCash }
      ([(RemoteOp.updateCash acct.id newCash, true),
        (RemoteOp.insertTx newTransaction, true)],
       { pd with
         accounts := replaceAccount pd.accounts updatedAccount,
         transactions :=
           setKey pd.transactions acct.id
             (lookupTxs pd.transactions acct.id ++ [newTransaction]) })

/-- `handleDeleteTransaction` (Dashboard.tsx lines 355-380), for the
transaction held in `deletingTransaction`. Same failure discipline as
the append handler. -/
def handleDeleteTransaction (pd : PortfolioData) (cashOk delOk : Bool)
    (deletingTransaction : Transaction) : List (RemoteOp × Bool) × PortfolioData :=
  match activeAccount pd with
  | none => ([], pd)
  | some acct =>
    let newCash := acct.cash + delCashDelta deletingTransaction
    if cashOk = false then
      ([(RemoteOp.updateCash acct.id newCash, false)], pd)
    else if delOk = false then
      ([(RemoteOp.updateCash acct.id newCash, true),
        (RemoteOp.deleteTx deletingTransaction.id, false)], pd)
    else
      let updatedAccount := { acct with cash := newCash }
      ([(RemoteOp.updateCash acct.id newCash, true),
        (RemoteOp.deleteTx deletingTransaction.id, true)],
       { pd with
         accounts := replaceAccount pd.accounts updatedAccount,
         transactions :=
           setKey pd.transactions acct.id
             ((lookupTxs pd.transactions acct.id).filter
               (fun tx => !(tx.id == deletingTransaction.id))) })

/-- `handleUpdateTransaction` (Dashboard.tsx lines 331-353): remotely
writes only shares, price, transaction_date and notes; locally replaces
the transaction with the matching id in the active account's list. The
accounts (and hence every cash balance) are not touched. -/
def handleUpdateTransaction (pd : PortfolioData) (ok : Bool)
    (updatedTx : Transaction) : List (RemoteOp × Bool) × PortfolioData :=
  match activeAccount pd with
  | none => ([], pd)
  | some acct =>
    let op := RemoteOp.updateTxFields updatedTx.id updatedTx.shares updatedTx.price
                updatedTx.date updatedTx.notes
    if ok = false then
      ([(op, false)], pd)
    else
      ([(op, true)],
       { pd with
         transactions :=
           setKey pd.transactions acct.id
             ((activeTransactions pd).map
               (fun tx => if tx.id == updatedTx.id then updatedTx else tx)) })

/-- `handleDeleteAccount` (Dashboard.tsx lines 428-446). The guard
`portfolioData.accounts.length <= 1` rejects the deletion outright. On
success the account list is filtered, its transaction entry erased and,
if the deleted account was active, `newAccounts[0].id` becomes active.
When the filtered list is empty, `newAccounts[0].id` is evaluated only
in the was-active branch, where the member access throws and the state
update never runs. -/
def handleDeleteAccount (pd : PortfolioData) (ok : Bool)
    (deletingAccount : Account) : List (RemoteOp × Bool) × PortfolioData :=
  if pd.accounts.length ≤ 1 then ([], pd)
  else if ok = false then
    ([(RemoteOp.deleteAccount deletingAccount.id, false)], pd)
  else
    let newAccounts := pd.accounts.filter (fun acc => !(acc.id == deletingAccount.id))
    let newTransactions := eraseKey pd.transactions deletingAccount.id
    match newAccounts with
    | [] =>
      if pd.activeAccountId = some deletingAccount.id then
        ([(RemoteOp.deleteAccount deletingAccount.id, true)], pd)
      else
        ([(RemoteOp.deleteAccount deletingAccount.id, true)],
         { accounts := [], transactions := newTransactions,
           activeAccountId := pd.activeAccountId })
    | first :: rest =>
      let newActiveId :=
        if pd.activeAccountId = some deletingAccount.id then some first.id
        else pd.activeAccountId
      ([(RemoteOp.deleteAccount deletingAccount.id, true)],
       { accounts := first :: rest, transactions := newTransactions,
         activeAccountId := newActiveId })

/-- A ledger mutation applied through the Dashboard handlers. -/
inductive LedgerOp
  | add (tx : Transaction)
  | del (tx : Transaction)
deriving DecidableEq

/-- Apply one ledger mutation with both remote writes succeeding. -/
def applyLedgerOp (pd : PortfolioData) (op : LedgerOp) : PortfolioData :=
  match op with
  | LedgerOp.add tx => (handleAddTransaction pd true true tx).2
  | LedgerOp.del tx => (handleDeleteTransaction pd true true tx).2

/-- Run a sequence of ledger mutations. -/
def runLedger (pd : PortfolioData) (ops : List LedgerOp) : PortfolioData :=
  ops.foldl applyLedgerOp pd

/-- Cash delta one ledger mutation applies to the active account. -/
def opCashDelta : LedgerOp → Rat
  | LedgerOp.add tx => addCashDelta tx
  | LedgerOp.del tx => delCashDelta tx

/-- JavaScript values as seen by the cache load path: the result of
`JSON.parse` plus `undefined`, which property access on a missing key
produces. -/
inductive JValue
  | undef
  | null
  | str (s : String)
  | num (q : Rat)
  | bool (b : Bool)
  | arr (xs : List JValue)
  | obj (fields : List (String × JValue))

/-- JavaScript truthiness of a value (NaN is not modelled). -/
def jTruthy : JValue → Bool
  | JValue.undef => false
  | JValue.null => false
  | JValue.str s => !(s == "")
  | JValue.num q => !(q == 0)
  | JValue.bool b => b
  | JValue.arr _ => true
  | JValue.obj _ => true

/-- JavaScript `typeof`. Note `typeof null === 'object'`. -/
def jTypeof : JValue → String
  | JValue.undef => "undefined"
  | JValue.null => "object"
  | JValue.str _ => "string"
  | JValue.num _ => "number"
  | JValue.bool _ => "boolean"
  | JValue.arr _ => "object"
  | JValue.obj _ => "object"

/-- JavaScript `Array.isArray`. -/
def jIsArray : JValue → Bool
  | JValue.arr _ => true
  | _ => false

/-- Whether a value is a plain object map. -/
def jIsObjMap : JValue → Bool
  | JValue.obj _ => true
  | _ => false

/-- JavaScript property access `v.k` as performed by the validation
condition: a missing key, or access on a primitive, yields `undefined`.
(Access on null/undefined would throw, but the short-circuit `parsedData &&`
guarantees the validation never accesses a property of a falsy value.) -/
def jGet (v : JValue) (k : String) : JValue :=
  match v with
  | JValue.obj fields => (fields.lookup k).getD JValue.undef
  | _ => JValue.undef

/-- The validation condition of `loadOfflineData` (Dashboard.tsx line 55):
`parsedData && Array.isArray(parsedData.accounts) &&
 typeof parsedData.transactions === 'object' && parsedData.activeAccountId`. -/
def validCache (v : JValue) : Bool :=
  jTruthy v && jIsArray (jGet v "accounts")
    && (jTypeof (jGet v "transactions") == "object")
    && jTruthy (jGet v "activeAccountId")

/-- `loadOfflineData` (Dashboard.tsx lines 48-69) as a function from the
cached blob (none when `localStorage` has no entry or `JSON.parse`
throws) to the resulting `portfolioData` state: the parsed value is
stored as-is when the validation passes, otherwise the thrown error is
caught and the state is set to null (`none`). -/
def loadOfflineData (cached : Option JValue) : Option JValue :=
  match cached with
  | none => none
  | some parsedData => if validCache parsedData then some parsedData else none

/-! ### Concrete test fixtures -/

/-- A fresh default account with the bootstrap starting cash of 10000
(Dashboard.tsx line 94). -/
def scenAccount : Account :=
  { id := "a1", user_id := "u1", name := "My First Account", cash := 10000 }

/-- A snapshot holding only the default account, no transactions. -/
def scenPd : PortfolioData :=
  { accounts := [scenAccount], transactions := [("a1", [])], activeAccountId := some "a1" }

/-- Helper to build a transaction on the fixture account. -/
def mkTx (i : String) (ty : TransactionType) (tk cn : String) (s p : Rat) : Transaction :=
  { id := i, account_id := "a1", user_id := "u1", ticker := tk, companyName := cn,
    type := ty, shares := s, price := p, date := "2025-11-18", notes := "" }

/-- BUY 10 AAPL at 150. -/
def scenBuy : Transaction := mkTx "t1" TransactionType.BUY "AAPL" "Apple Inc." 10 150

/-- DEPOSIT of 500 (amount recorded as shares times price, the encoding
the investment-history view renders). -/
def scenDeposit : Transaction := mkTx "t2" TransactionType.DEPOSIT "" "" 500 1

/-- SELL 5 AAPL at 160. -/
def scenSell : Transaction := mkTx "t3" TransactionType.SELL "AAPL" "Apple Inc." 5 160

/-- The three appends of the specification scenario, in order. -/
def scenOps : List LedgerOp :=
  [LedgerOp.add scenBuy, LedgerOp.add scenDeposit, LedgerOp.add scenSell]

/-- A cached blob whose `transactions` field is null: not a map object,
yet `typeof null === 'object'` makes it pass validation. -/
def nullTxBlob : JValue :=
  JValue.obj [("accounts", JValue.arr []), ("transactions", JValue.null),
              ("activeAccountId", JValue.str "a1")]

/-- A cached blob missing the `transactionsByAccount` map entirely. -/
def missingTxBlob : JValue :=
  JValue.obj [("accounts", JValue.arr []), ("activeAccountId", JValue.str "a1")]

/-- A snapshot whose active account already holds the BUY, for the
update-transaction fixture. -/
def scenPdWithTx : PortfolioData :=
  { accounts := [scenAccount], transactions := [("a1", [mkTx "t1" TransactionType.BUY "AAPL" "Apple Inc." 10 150])],
    activeAccountId := some "a1" }

/-- The BUY after an edit of its price and notes only. -/
def scenBuyEdited : Transaction :=
  { mkTx "t1" TransactionType.BUY "AAPL" "Apple Inc." 10 155 with notes := "edited" }

/-- A second account, for the delete-account fixture. -/
def scenAccount2 : Account :=
  { id := "a2", user_id := "u1", name := "Second Account", cash := 0 }

/-- A snapshot with two accounts, the first active. -/
def scenPd2 : PortfolioData :=
  { accounts := [scenAccount, scenAccount2],
    transactions := [("a1", []), ("a2", [])], activeAccountId := some "a1" }

/-- The fields of a transaction the update handler may not change. -/
def sameFrame (a b : Transaction) : Prop :=
  a.id = b.id ∧ a.account_id = b.account_id ∧ a.user_id = b.user_id
    ∧ a.ticker = b.ticker ∧ a.companyName = b.companyName ∧ a.type = b.type

/-- One step of the per-ticker view of the `calculatePositions` fold:
the aggregate of a ticker, as an optional value, after one of its own
transactions. -/
def stepOpt (st : Option PosAgg) (tx : Transaction) : Option PosAgg :=
  some (applyTx (st.getD { shares := 0, cost := 0, companyName := tx.companyName }) tx)

/-- The cash-movement kinds, which the specification says the position
reducer ignores. -/
def isCashTx (tx : Transaction) : Bool :=
  tx.type == TransactionType.DEPOSIT || tx.type == TransactionType.WITHDRAWAL

/-! ### Association-list lemmas -/

theorem lookup_setKey_self {α : Type} (m : List (String × α)) (k : String) (v : α) :
    (setKey m k v).lookup k = some v := by
  induction m with
  | nil => simp [setKey, List.lookup]
  | cons hd tl ih =>
    obtain ⟨k', v'⟩ := hd
    by_cases h : k' = k
    · subst h
      simp [setKey, List.lookup]
    · have h1 : (k' == k) = false := beq_eq_false_iff_ne.mpr h
      have h2 : (k == k') = false := beq_eq_false_iff_ne.mpr (Ne.symm h)
      simp [setKey, List.lookup, h1, h2, ih]

theorem lookup_setKey_ne {α : Type} (m : List (String × α)) (k k' : String) (v : α)
    (h : k' ≠ k) : (setKey m k v).lookup k' = m.lookup k' := by
  have hkk : (k' == k) = false := beq_eq_false_iff_ne.mpr h
  induction m with
  | nil => simp [setKey, List.lookup, hkk]
  | cons hd tl ih =>
    obtain ⟨k₀, v₀⟩ := hd
    by_cases h0 : k₀ = k
    · subst h0
      simp [setKey, List.lookup, hkk]
    · have h0f : (k₀ == k) = false := beq_eq_false_iff_ne.mpr h0
      cases hb : (k' == k₀) with
      | true => simp [setKey, List.lookup, h0f, hb]
      | false => simp [setKey, List.lookup, h0f, hb, ih]

/-! ### The active account after a cash update -/

theorem find?_replaceAccount (l : List Account) (aid : String) (acct upd : Account)
    (hfind : l.find? (fun a => a.id == aid) = some acct) (hid : upd.id = acct.id) :
    (replaceAccount l upd).find? (fun a => a.id == aid) = some upd := by
  have hacctid : acct.id = aid := by
    have h1 := List.find?_some hfind
    simpa [beq_iff_eq] using h1
  induction l with
  | nil => simp at hfind
  | cons hd tl ih =>
    by_cases h : hd.id = aid
    · have hp : (hd.id == aid) = true := beq_iff_eq.mpr h
      have hacct : hd = acct := by
        have hh : some hd = some acct := by
          rw [← hfind]
          simp [List.find?, hp]
        injection hh
      have hup : (hd.id == upd.id) = true := by
        rw [beq_iff_eq, hid, hacct]
      have hpr : (upd.id == aid) = true := by
        rw [beq_iff_eq, hid, hacctid]
      simp [replaceAccount, List.find?, hup, hpr]
    · have hp : (hd.id == aid) = false := beq_eq_false_iff_ne.mpr h
      have hfind' : tl.find? (fun a => a.id == aid) = some acct := by
        rw [← hfind]
        simp [List.find?, hp]
      have hidne : (hd.id == upd.id) = false := by
        rw [beq_eq_false_iff_ne]
        intro he
        exact h (by rw [he, hid, hacctid])
      have hgoal := ih hfind'
      simp only [replaceAccount, List.map_cons] at hgoal ⊢
      simp [List.find?, hp, hidne]
      simpa [replaceAccount] using hgoal

theorem activeAccount_update (pd : PortfolioData) (acct upd : Account)
    (T : List (String × List Transaction))
    (h : activeAccount pd = some acct) (hid : upd.id = acct.id) :
    activeAccount { accounts := replaceAccount pd.accounts upd,
                    transactions := T,
                    activeAccountId := pd.activeAccountId } = some upd := by
  unfold activeAccount at h ⊢
  cases haid : pd.activeAccountId with
  | none => rw [haid] at h; exact absurd h (by simp)
  | some aid =>
    rw [haid] at h
    exact find?_replaceAccount pd.accounts aid acct upd h hid

theorem activeAccount_handleAdd (pd : PortfolioData) (acct : Account) (tx : Transaction)
    (h : activeAccount pd = some acct) :
    activeAccount (handleAddTransaction pd true true tx).2
      = some { acct with cash := acct.cash + addCashDelta tx } := by
  unfold handleAddTransaction
  rw [h]
  simp only [Bool.true_eq_false, if_false]
  exact activeAccount_update pd acct _ _ h rfl

theorem activeAccount_handleDelete (pd : PortfolioData) (acct : Account) (tx : Transaction)
    (h : activeAccount pd = some acct) :
    activeAccount (handleDeleteTransaction pd true true tx).2
      = some { acct with cash := acct.cash + delCashDelta tx } := by
  unfold handleDeleteTransaction
  rw [h]
  simp only [Bool.true_eq_false, if_false]
  exact activeAccount_update pd acct _ _ h rfl

theorem activeAccount_applyLedgerOp (pd : PortfolioData) (acct : Account) (op : LedgerOp)
    (h : activeAccount pd = some acct) :
    activeAccount (applyLedgerOp pd op)
      = some { acct with cash := acct.cash + opCashDelta op } := by
  cases op with
  | add tx => exact activeAccount_handleAdd pd acct tx h
  | del tx => exact activeAccount_handleDelete pd acct tx h

/-! ### C1: cash balance after a ledger run -/

/-- C1 (counterexample): the claimed invariant adds deposit amounts to
the cash balance, but `handleAddTransaction` computes
`type === 'SELL' ? shares*price : -(shares*price)`, so an appended
DEPOSIT of 500 onto a 10000 account leaves 9500, not the claimed
10000 + 500 = 10500. -/
theorem c1_counterexample :
    cashOf (runLedger scenPd [LedgerOp.add scenDeposit]) = some 9500
      ∧ (9500 : Rat) ≠ 10000 + 500 := by
  constructor
  · have h2 : cashOf (runLedger scenPd [LedgerOp.add scenDeposit])
        = some (scenAccount.cash + addCashDelta scenDeposit) := by
      show cashOf (applyLedgerOp scenPd (LedgerOp.add scenDeposit)) = _
      rw [cashOf, activeAccount_applyLedgerOp scenPd scenAccount _ rfl]
      rfl
    have hd : addCashDelta scenDeposit = -(500 * 1) := rfl
    rw [h2, hd]
    norm_num [scenAccount]
  · norm_num

/-- C1 (amended): after any sequence of appends and deletes through
`handleAddTransaction`/`handleDeleteTransaction` (all remote writes
succeeding), the active account's cash equals its initial cash plus,
for each append, `shares*price` for a SELL and `-(shares*price)` for
every other kind (BUY, DEPOSIT and WITHDRAWAL alike), plus, for each
delete, `shares*price` for a BUY and `-(shares*price)` for every other
kind. Restricted to BUY/SELL transactions this is the claimed formula;
DEPOSIT amounts are subtracted, not added. -/
theorem c1_cash_after_ledger_run (pd : PortfolioData) (acct : Account) (ops : List LedgerOp)
    (h : activeAccount pd = some acct) :
    cashOf (runLedger pd ops) = some (acct.cash + (ops.map opCashDelta).sum) := by
  induction ops generalizing pd acct with
  | nil => simp [runLedger, cashOf, h]
  | cons op rest ih =>
    have h1 := activeAccount_applyLedgerOp pd acct op h
    have h2 := ih (applyLedgerOp pd op) _ h1
    rw [runLedger] at h2 ⊢
    simp only [List.foldl_cons]
    rw [h2]
    simp [add_assoc]

/-- C1 (witness): the amended theorem applied to the concrete scenario
account and operation list. -/
theorem c1_cash_after_ledger_run_witness :
    cashOf (runLedger scenPd scenOps)
      = some (scenAccount.cash + (scenOps.map opCashDelta).sum) :=
  c1_cash_after_ledger_run scenPd scenAccount scenOps rfl

/-! ### C4: cash written before the transaction row, fail-fast -/

/-- C4: for a BUY/SELL append the remote trace is the cash update (with
delta `-shares*price` for BUY, `+shares*price` for SELL) followed by the
row insert; for a delete the delta signs are reversed and the cash
update precedes the row removal; when the cash update fails, the
transaction write is not attempted and the local state is unchanged. -/
theorem c4_cash_write_ordering (pd : PortfolioData) (acct : Account) (tx : Transaction)
    (txOk delOk : Bool)
    (h : activeAccount pd = some acct)
    (hbs : tx.type = TransactionType.BUY ∨ tx.type = TransactionType.SELL) :
    handleAddTransaction pd false txOk tx
        = ([(RemoteOp.updateCash acct.id (acct.cash + addCashDelta tx), false)], pd)
    ∧ (handleAddTransaction pd true txOk tx).1
        = [(RemoteOp.updateCash acct.id (acct.cash + addCashDelta tx), true),
           (RemoteOp.insertTx tx, txOk)]
    ∧ handleDeleteTransaction pd false delOk tx
        = ([(RemoteOp.updateCash acct.id (acct.cash + delCashDelta tx), false)], pd)
    ∧ (handleDeleteTransaction pd true delOk tx).1
        = [(RemoteOp.updateCash acct.id (acct.cash + delCashDelta tx), true),
           (RemoteOp.deleteTx tx.id, delOk)]
    ∧ addCashDelta tx
        = (if tx.type = TransactionType.BUY then -(tx.shares * tx.price)
           else tx.shares * tx.price)
    ∧ delCashDelta tx = -(addCashDelta tx) := by
  refine ⟨?_, ?_, ?_, ?_, ?_, ?_⟩
  · unfold handleAddTransaction
    rw [h]
    simp
  · unfold handleAddTransaction
    rw [h]
    cases txOk <;> simp
  · unfold handleDeleteTransaction
    rw [h]
    simp
  · unfold handleDeleteTransaction
    rw [h]
    cases delOk <;> simp
  · rcases hbs with hb | hs
    · simp [addCashDelta, hb]
    · simp [addCashDelta, hs]
  · rcases hbs with hb | hs
    · simp [addCashDelta, delCashDelta, hb]
    · simp [addCashDelta, delCashDelta, hs]

/-- C4 (witness): the ordering theorem applied to the fixture snapshot
and the concrete BUY, with a failing transaction insert. -/
theorem c4_cash_write_ordering_witness :
    handleAddTransaction scenPd false false scenBuy
        = ([(RemoteOp.updateCash scenAccount.id
              (scenAccount.cash + addCashDelta scenBuy), false)], scenPd)
    ∧ (handleAddTransaction scenPd true false scenBuy).1
        = [(RemoteOp.updateCash scenAccount.id
             (scenAccount.cash + addCashDelta scenBuy), true),
           (RemoteOp.insertTx scenBuy, false)]
    ∧ handleDeleteTransaction scenPd false false scenBuy
        = ([(RemoteOp.updateCash scenAccount.id
              (scenAccount.cash + delCashDelta scenBuy), false)], scenPd)
    ∧ (handleDeleteTransaction scenPd true false scenBuy).1
        = [(RemoteOp.updateCash scenAccount.id
             (scenAccount.cash + delCashDelta scenBuy), true),
           (RemoteOp.deleteTx scenBuy.id, false)]
    ∧ addCashDelta scenBuy
        = (if scenBuy.type = TransactionType.BUY then -(scenBuy.shares * scenBuy.price)
           else scenBuy.shares * scenBuy.price)
    ∧ delCashDelta scenBuy = -(addCashDelta scenBuy) :=
  c4_cash_write_ordering scenPd scenAccount scenBuy false false rfl (Or.inl rfl)

/-! ### C6: delete reverses a BUY append -/

/-- C6: appending a BUY transaction and then deleting it restores the
active account's cash balance to its value before the append. -/
theorem c6_add_delete_buy_roundtrip (pd : PortfolioData) (acct : Account) (tx : Transaction)
    (h : activeAccount pd = some acct) (hb : tx.type = TransactionType.BUY) :
    cashOf (handleDeleteTransaction (handleAddTransaction pd true true tx).2 true true tx).2
      = cashOf pd := by
  have h1 := activeAccount_handleAdd pd acct tx h
  have h2 := activeAccount_handleDelete _ _ tx h1
  rw [cashOf, h2, cashOf, h]
  simp only [Option.map_some']
  congr 1
  simp [addCashDelta, delCashDelta, hb]

/-- C6 (witness): the round trip on the fixture account and the
concrete BUY of 10 shares at 150. -/
theorem c6_add_delete_buy_roundtrip_witness :
    cashOf (handleDeleteTransaction
        (handleAddTransaction scenPd true true scenBuy).2 true true scenBuy).2
      = cashOf scenPd :=
  c6_add_delete_buy_roundtrip scenPd scenAccount scenBuy rfl rfl

/-! ### The per-ticker view of the positions fold -/

theorem lookup_foldl_calcStep (txs : List Transaction)
    (m : List (String × PosAgg)) (t : String) :
    (txs.foldl calcStep m).lookup t
      = (txs.filter (fun tx => tx.ticker == t)).foldl stepOpt (m.lookup t) := by
  induction txs generalizing m with
  | nil => simp
  | cons tx rest ih =>
    simp only [List.foldl_cons]
    rw [ih]
    by_cases hb : tx.ticker = t
    · subst hb
      have h1 : (calcStep m tx).lookup tx.ticker = stepOpt (m.lookup tx.ticker) tx := by
        simp only [calcStep, stepOpt]
        rw [lookup_setKey_self]
        cases hm : m.lookup tx.ticker <;> simp [hm]
      have h2 : (tx :: rest).filter (fun tx' => tx'.ticker == tx.ticker)
          = tx :: rest.filter (fun tx' => tx'.ticker == tx.ticker) := by
        simp [List.filter_cons]
      rw [h1, h2, List.foldl_cons]
    · have h1 : (calcStep m tx).lookup t = m.lookup t := by
        simp only [calcStep]
        exact lookup_setKey_ne _ _ _ _ (Ne.symm hb)
      have hbf : (tx.ticker == t) = false := beq_eq_false_iff_ne.mpr hb
      have h2 : (tx :: rest).filter (fun tx' => tx'.ticker == t)
          = rest.filter (fun tx' => tx'.ticker == t) := by
        simp [List.filter_cons, hbf]
      rw [h1, h2]

/-! ### C3: DEPOSIT/WITHDRAWAL and the position reducer -/

/-- C3 (counterexample): `calculatePositions` has no case for DEPOSIT
or WITHDRAWAL: they fall into the SELL branch, so a single DEPOSIT
(empty ticker, 500 shares) produces a map with one entry while the list
with cash movements removed produces the empty map. -/
theorem c3_counterexample :
    calculatePositions [scenDeposit]
      ≠ calculatePositions ([scenDeposit].filter (fun tx => !(isCashTx tx))) := by
  intro h
  have h1 : calculatePositions [scenDeposit]
      = [("", applyTx { shares := 0, cost := 0, companyName := "" } scenDeposit)] := rfl
  have h2 : calculatePositions ([scenDeposit].filter (fun tx => !(isCashTx tx))) = [] := rfl
  rw [h1, h2] at h
  exact List.cons_ne_nil _ _ h

/-- C3 (amended): `calculatePositions` treats DEPOSIT and WITHDRAWAL
transactions like SELLs of their own (empty) ticker; for every ticker
that does not appear on any DEPOSIT/WITHDRAWAL row, the aggregate is
identical to the one computed from the list with all cash movements
removed. -/
theorem c3_positions_ignore_cash_off_ticker (txs : List Transaction) (t : String)
    (h : ∀ tx ∈ txs, isCashTx tx = true → tx.ticker ≠ t) :
    (calculatePositions txs).lookup t
      = (calculatePositions (txs.filter (fun tx => !(isCashTx tx)))).lookup t := by
  unfold calculatePositions
  rw [lookup_foldl_calcStep, lookup_foldl_calcStep]
  suffices hf : txs.filter (fun tx => tx.ticker == t)
      = (txs.filter (fun tx => !(isCashTx tx))).filter (fun tx => tx.ticker == t) by
    rw [hf]
  rw [List.filter_filter]
  apply List.filter_congr
  intro tx hmem
  by_cases hc : isCashTx tx = true
  · have hnt : (tx.ticker == t) = false := beq_eq_false_iff_ne.mpr (h tx hmem hc)
    simp [hnt, hc]
  · simp [Bool.eq_false_iff.mpr hc]

/-- C3 (witness): the amended theorem at the concrete scenario list and
ticker AAPL, which appears on no DEPOSIT/WITHDRAWAL row. -/
theorem c3_positions_ignore_cash_off_ticker_witness :
    (calculatePositions [scenBuy, scenDeposit, scenSell]).lookup "AAPL"
      = (calculatePositions
          ([scenBuy, scenDeposit, scenSell].filter (fun tx => !(isCashTx tx)))).lookup "AAPL" :=
  c3_positions_ignore_cash_off_ticker [scenBuy, scenDeposit, scenSell] "AAPL"
    (by decide)

/-! ### C10: company name comes from the last transaction of a ticker -/

/-- C10: for every ticker appearing in the list, the aggregate's
companyName equals the companyName of the last transaction with that
ticker — every transaction, including SELLs, overwrites it. -/
theorem c10_company_name_from_last (txs : List Transaction) (t : String) (tx0 : Transaction)
    (h0 : tx0 ∈ txs) (ht : tx0.ticker = t) :
    ∃ p tl, (calculatePositions txs).lookup t = some p
      ∧ (txs.filter (fun tx => tx.ticker == t)).getLast? = some tl
      ∧ p.companyName = tl.companyName := by
  have hmem : tx0 ∈ txs.filter (fun tx => tx.ticker == t) :=
    List.mem_filter.mpr ⟨h0, by simp [ht]⟩
  rcases List.eq_nil_or_concat (txs.filter (fun tx => tx.ticker == t)) with hnil | ⟨l, tl, hconc⟩
  · rw [hnil] at hmem
    cases hmem
  · refine ⟨applyTx ((l.foldl stepOpt none).getD
        { shares := 0, cost := 0, companyName := tl.companyName }) tl, tl, ?_, ?_, ?_⟩
    · unfold calculatePositions
      rw [lookup_foldl_calcStep]
      show (txs.filter (fun tx => tx.ticker == t)).foldl stepOpt none = _
      rw [hconc, List.concat_eq_append, List.foldl_append]
      rfl
    · rw [hconc, List.concat_eq_append]
      exact List.getLast?_concat _
    · rfl

/-- C10 (witness): on the list BUY then SELL of AAPL the aggregate's
company name is that of the last AAPL transaction. -/
theorem c10_company_name_from_last_witness :
    ∃ p tl, (calculatePositions [scenBuy, scenDeposit, scenSell]).lookup "AAPL" = some p
      ∧ ([scenBuy, scenDeposit, scenSell].filter
          (fun tx => tx.ticker == "AAPL")).getLast? = some tl
      ∧ p.companyName = tl.companyName :=
  c10_company_name_from_last [scenBuy, scenDeposit, scenSell] "AAPL" scenBuy
    (by simp) rfl

/-! ### C2: the concrete specification scenario -/

/-- C2 (counterexample): against the claim, appending the DEPOSIT of
500 through `handleAddTransaction` lowers cash from 8500 to 8000 (not
9000), and the final balance after the SELL is 8800 (not 9800). -/
theorem c2_counterexample :
    cashOf (runLedger scenPd [LedgerOp.add scenBuy, LedgerOp.add scenDeposit]) = some 8000
    ∧ (8000 : Rat) ≠ 9000
    ∧ cashOf (runLedger scenPd scenOps) = some 8800
    ∧ (8800 : Rat) ≠ 9800 := by
  have h1 := activeAccount_applyLedgerOp scenPd scenAccount (LedgerOp.add scenBuy) rfl
  have h2 := activeAccount_applyLedgerOp _ _ (LedgerOp.add scenDeposit) h1
  have h3 := activeAccount_applyLedgerOp _ _ (LedgerOp.add scenSell) h2
  have hb : addCashDelta scenBuy = -(10 * 150) := rfl
  have hd : addCashDelta scenDeposit = -(500 * 1) := rfl
  have hs : addCashDelta scenSell = 5 * 160 := rfl
  refine ⟨?_, by norm_num, ?_, by norm_num⟩
  · show ((activeAccount (applyLedgerOp (applyLedgerOp scenPd
        (LedgerOp.add scenBuy)) (LedgerOp.add scenDeposit))).map Account.cash) = some 8000
    rw [h2]
    simp only [Option.map_some']
    rw [show opCashDelta (LedgerOp.add scenBuy) = addCashDelta scenBuy from rfl,
        show opCashDelta (LedgerOp.add scenDeposit) = addCashDelta scenDeposit from rfl,
        hb, hd]
    norm_num [scenAccount]
  · show ((activeAccount (applyLedgerOp (applyLedgerOp (applyLedgerOp scenPd
        (LedgerOp.add scenBuy)) (LedgerOp.add scenDeposit))
        (LedgerOp.add scenSell))).map Account.cash) = some 8800
    rw [h3]
    simp only [Option.map_some']
    rw [show opCashDelta (LedgerOp.add scenBuy) = addCashDelta scenBuy from rfl,
        show opCashDelta (LedgerOp.add scenDeposit) = addCashDelta scenDeposit from rfl,
        show opCashDelta (LedgerOp.add scenSell) = addCashDelta scenSell from rfl,
        hb, hd, hs]
    norm_num [scenAccount]

/-- C2 (amended): starting from cash 10000, the BUY leaves 8500; the
appended DEPOSIT of 500 is subtracted by the handler, leaving 8000; the
SELL of 5 AAPL at 160 leaves 8800; and the computed AAPL aggregate is
exactly 5 shares with cost basis 750, i.e. averageCost 150. -/
theorem c2_scenario_amended :
    cashOf (runLedger scenPd [LedgerOp.add scenBuy]) = some 8500
    ∧ cashOf (runLedger scenPd [LedgerOp.add scenBuy, LedgerOp.add scenDeposit]) = some 8000
    ∧ cashOf (runLedger scenPd scenOps) = some 8800
    ∧ (calculatePositions (activeTransactions (runLedger scenPd scenOps))).lookup "AAPL"
        = some { shares := 5, cost := 750, companyName := "Apple Inc." }
    ∧ ((calculatePositions (activeTransactions (runLedger scenPd scenOps))).lookup "AAPL").map avgCost
        = some 150 := by
  have h1 := activeAccount_applyLedgerOp scenPd scenAccount (LedgerOp.add scenBuy) rfl
  have h2 := activeAccount_applyLedgerOp _ _ (LedgerOp.add scenDeposit) h1
  have h3 := activeAccount_applyLedgerOp _ _ (LedgerOp.add scenSell) h2
  have hb : addCashDelta scenBuy = -(10 * 150) := rfl
  have hd : addCashDelta scenDeposit = -(500 * 1) := rfl
  have hs : addCashDelta scenSell = 5 * 160 := rfl
  have htx : activeTransactions (runLedger scenPd scenOps)
      = [scenBuy, scenDeposit, scenSell] := rfl
  have hfilter : [scenBuy, scenDeposit, scenSell].filter (fun tx => tx.ticker == "AAPL")
      = [scenBuy, scenSell] := rfl
  have hlook : (calculatePositions [scenBuy, scenDeposit, scenSell]).lookup "AAPL"
      = some (applyTx (applyTx { shares := 0, cost := 0, companyName := "Apple Inc." }
          scenBuy) scenSell) := by
    unfold calculatePositions
    rw [lookup_foldl_calcStep]
    show ([scenBuy, scenDeposit, scenSell].filter
        (fun tx => tx.ticker == "AAPL")).foldl stepOpt none = _
    rw [hfilter]
    rfl
  have happ : applyTx (applyTx { shares := 0, cost := 0, companyName := "Apple Inc." }
      scenBuy) scenSell = { shares := 5, cost := 750, companyName := "Apple Inc." } := by
    have hbuy : applyTx { shares := 0, cost := 0, companyName := "Apple Inc." } scenBuy
        = { shares := 0 + 10, cost := 0 + 10 * 150, companyName := "Apple Inc." } := rfl
    rw [hbuy]
    show ({ shares := (0 + 10) - 5,
            cost := (0 + 10 * 150) - 5 * (if ((0 + 10 : Rat) > 0)
              then (0 + 10 * 150) / (0 + 10) else 0),
            companyName := "Apple Inc." } : PosAgg) = _
    norm_num
  refine ⟨?_, ?_, ?_, ?_, ?_⟩
  · show ((activeAccount (applyLedgerOp scenPd (LedgerOp.add scenBuy))).map Account.cash)
        = some 8500
    rw [h1]
    simp only [Option.map_some']
    rw [show opCashDelta (LedgerOp.add scenBuy) = addCashDelta scenBuy from rfl, hb]
    norm_num [scenAccount]
  · show ((activeAccount (applyLedgerOp (applyLedgerOp scenPd
        (LedgerOp.add scenBuy)) (LedgerOp.add scenDeposit))).map Account.cash) = some 8000
    rw [h2]
    simp only [Option.map_some']
    rw [show opCashDelta (LedgerOp.add scenBuy) = addCashDelta scenBuy from rfl,
        show opCashDelta (LedgerOp.add scenDeposit) = addCashDelta scenDeposit from rfl,
        hb, hd]
    norm_num [scenAccount]
  · show ((activeAccount (applyLedgerOp (applyLedgerOp (applyLedgerOp scenPd
        (LedgerOp.add scenBuy)) (LedgerOp.add scenDeposit))
        (LedgerOp.add scenSell))).map Account.cash) = some 8800
    rw [h3]
    simp only [Option.map_some']
    rw [show opCashDelta (LedgerOp.add scenBuy) = addCashDelta scenBuy from rfl,
        show opCashDelta (LedgerOp.add scenDeposit) = addCashDelta scenDeposit from rfl,
        show opCashDelta (LedgerOp.add scenSell) = addCashDelta scenSell from rfl,
        hb, hd, hs]
    norm_num [scenAccount]
  · rw [htx, hlook, happ]
  · rw [htx, hlook, happ]
    simp only [Option.map_some']
    rw [show avgCost { shares := 5, cost := 750, companyName := "Apple Inc." }
        = (if ((5 : Rat) > 0) then (750 : Rat) / 5 else 0) from rfl]
    norm_num

/-! ### C9: every division is guarded -/

/-- C9: `avgCost` returns 0 when shares are not positive; the SELL
branch of the reducer uses per-share cost 0 when held shares are not
positive (so cost is unchanged and shares just decrease); and
`totalGainLossPercent` is 0 when the total cost basis is 0. -/
theorem c9_division_guards (p : PosAgg) (tx : Transaction) (positions : List Position)
    (cash : Rat)
    (hs : p.shares ≤ 0) (hb : tx.type ≠ TransactionType.BUY)
    (hc : totalCostBasis positions = 0) :
    avgCost p = 0
    ∧ (applyTx p tx).cost = p.cost
    ∧ (applyTx p tx).shares = p.shares - tx.shares
    ∧ (summaryData positions cash).totalGainLossPercent = 0 := by
  refine ⟨?_, ?_, ?_, ?_⟩
  · simp [avgCost, not_lt.mpr hs]
  · simp [applyTx, hb, not_lt.mpr hs]
  · simp [applyTx, hb]
  · simp [summaryData, hc]

/-- C9 (witness): the guards at a closed aggregate with zero shares, a
SELL, and an empty positions list. -/
theorem c9_division_guards_witness :
    avgCost { shares := 0, cost := 7, companyName := "X" } = 0
    ∧ (applyTx { shares := 0, cost := 7, companyName := "X" } scenSell).cost = 7
    ∧ (applyTx { shares := 0, cost := 7, companyName := "X" } scenSell).shares = 0 - scenSell.shares
    ∧ (summaryData [] 42).totalGainLossPercent = 0 :=
  c9_division_guards { shares := 0, cost := 7, companyName := "X" } scenSell [] 42
    le_rfl (by decide) rfl

theorem activeTransactions_setKeyActive (pd : PortfolioData) (acct : Account)
    (L : List Transaction) (hA : activeAccount pd = some acct) :
    activeTransactions { pd with transactions := setKey pd.transactions acct.id L } = L := by
  have hAA : activeAccount { pd with transactions := setKey pd.transactions acct.id L }
      = some acct := hA
  unfold activeTransactions
  rw [hAA]
  show (List.lookup acct.id (setKey pd.transactions acct.id L)).getD [] = L
  rw [lookup_setKey_self]
  rfl

/-! ### C5: editing a transaction never touches cash -/

/-- C5: updating a transaction's shares/price/date/notes leaves the
account list — hence every cash balance — unchanged, issues exactly one
remote write carrying only those four fields, and changes no other
field of any transaction. -/
theorem c5_update_preserves_cash_and_frame (pd : PortfolioData) (acct : Account)
    (updatedTx : Transaction) (ok : Bool)
    (hA : activeAccount pd = some acct)
    (hframe : ∀ tx ∈ activeTransactions pd, tx.id = updatedTx.id → sameFrame tx updatedTx) :
    (handleUpdateTransaction pd ok updatedTx).2.accounts = pd.accounts
    ∧ (handleUpdateTransaction pd ok updatedTx).1
        = [(RemoteOp.updateTxFields updatedTx.id updatedTx.shares updatedTx.price
             updatedTx.date updatedTx.notes, ok)]
    ∧ (∀ tx ∈ activeTransactions pd,
        sameFrame tx (if tx.id == updatedTx.id then updatedTx else tx))
    ∧ activeTransactions (handleUpdateTransaction pd ok updatedTx).2
        = (if ok then (activeTransactions pd).map
             (fun tx => if tx.id == updatedTx.id then updatedTx else tx)
           else activeTransactions pd) := by
  have hframe2 : ∀ tx ∈ activeTransactions pd,
      sameFrame tx (if tx.id == updatedTx.id then updatedTx else tx) := by
    intro tx hm
    by_cases hid : tx.id = updatedTx.id
    · rw [if_pos (beq_iff_eq.mpr hid)]
      exact hframe tx hm hid
    · rw [if_neg (by simp [beq_iff_eq, hid])]
      exact ⟨rfl, rfl, rfl, rfl, rfl, rfl⟩
  cases ok with
  | false =>
    have hres : handleUpdateTransaction pd false updatedTx
        = ([(RemoteOp.updateTxFields updatedTx.id updatedTx.shares updatedTx.price
              updatedTx.date updatedTx.notes, false)], pd) := by
      unfold handleUpdateTransaction
      rw [hA]
      simp
    rw [hres]
    exact ⟨rfl, rfl, hframe2, by simp⟩
  | true =>
    have hres : handleUpdateTransaction pd true updatedTx
        = ([(RemoteOp.updateTxFields updatedTx.id updatedTx.shares updatedTx.price
              updatedTx.date updatedTx.notes, true)],
           { pd with
             transactions := setKey pd.transactions acct.id
               ((activeTransactions pd).map
                 (fun tx => if tx.id == updatedTx.id then updatedTx else tx)) }) := by
      unfold handleUpdateTransaction
      rw [hA]
      simp
    rw [hres]
    refine ⟨rfl, rfl, hframe2, ?_⟩
    simpa using activeTransactions_setKeyActive pd acct
      ((activeTransactions pd).map
        (fun tx => if tx.id == updatedTx.id then updatedTx else tx)) hA

/-- C5 (witness): editing the price and notes of the fixture BUY. -/
theorem c5_update_preserves_cash_and_frame_witness :
    (handleUpdateTransaction scenPdWithTx true scenBuyEdited).2.accounts
        = scenPdWithTx.accounts
    ∧ (handleUpdateTransaction scenPdWithTx true scenBuyEdited).1
        = [(RemoteOp.updateTxFields scenBuyEdited.id scenBuyEdited.shares
             scenBuyEdited.price scenBuyEdited.date scenBuyEdited.notes, true)]
    ∧ (∀ tx ∈ activeTransactions scenPdWithTx,
        sameFrame tx (if tx.id == scenBuyEdited.id then scenBuyEdited else tx))
    ∧ activeTransactions (handleUpdateTransaction scenPdWithTx true scenBuyEdited).2
        = (if true then (activeTransactions scenPdWithTx).map
             (fun tx => if tx.id == scenBuyEdited.id then scenBuyEdited else tx)
           else activeTransactions scenPdWithTx) :=
  c5_update_preserves_cash_and_frame scenPdWithTx scenAccount scenBuyEdited true rfl
    (by
      intro tx hm _
      have hATx : activeTransactions scenPdWithTx
          = [mkTx "t1" TransactionType.BUY "AAPL" "Apple Inc." 10 150] := rfl
      rw [hATx] at hm
      have htx : tx = mkTx "t1" TransactionType.BUY "AAPL" "Apple Inc." 10 150 :=
        List.mem_singleton.mp hm
      subst htx
      exact ⟨rfl, rfl, rfl, rfl, rfl, rfl⟩)

/-! ### C7: the delete-account guard -/

/-- C7: with a well-formed snapshot (nonempty accounts, distinct ids,
active id present), deleting when only one account exists is rejected
with no remote write and no state change; after any delete the owner
still has at least one account; and the resulting active id, if set,
belongs to a surviving account. -/
theorem c7_delete_account_safety (pd : PortfolioData) (ok : Bool) (acctD : Account)
    (hne : pd.accounts ≠ [])
    (hnd : (pd.accounts.map Account.id).Nodup)
    (hact : ∀ a, pd.activeAccountId = some a → a ∈ pd.accounts.map Account.id) :
    (pd.accounts.length = 1 → handleDeleteAccount pd ok acctD = ([], pd))
    ∧ (handleDeleteAccount pd ok acctD).2.accounts ≠ []
    ∧ (∀ a, (handleDeleteAccount pd ok acctD).2.activeAccountId = some a
          → a ∈ (handleDeleteAccount pd ok acctD).2.accounts.map Account.id) := by
  by_cases hlen : pd.accounts.length ≤ 1
  · have hres : handleDeleteAccount pd ok acctD = ([], pd) := by
      unfold handleDeleteAccount
      rw [if_pos hlen]
    rw [hres]
    exact ⟨fun _ => rfl, hne, hact⟩
  · cases ok with
    | false =>
      have hres : handleDeleteAccount pd false acctD
          = ([(RemoteOp.deleteAccount acctD.id, false)], pd) := by
        unfold handleDeleteAccount
        rw [if_neg hlen]
        simp
      rw [hres]
      exact ⟨fun hl => absurd (hl ▸ le_rfl) hlen, hne, hact⟩
    | true =>
      obtain ⟨a, b, rest, hacc⟩ : ∃ a b rest, pd.accounts = a :: b :: rest := by
        cases hpa : pd.accounts with
        | nil => rw [hpa] at hlen; simp at hlen
        | cons x tl =>
          cases htl : tl with
          | nil =>
            rw [hpa, htl] at hlen
            simp at hlen
          | cons y r =>
            subst htl
            exact ⟨x, y, r, rfl⟩
      have hab : a.id ≠ b.id := by
        rw [hacc] at hnd
        rw [List.map_cons, List.map_cons, List.nodup_cons] at hnd
        intro he
        exact hnd.1 (List.mem_cons.mpr (Or.inl he))
      have hexists : ∃ x ∈ pd.accounts, (!(x.id == acctD.id)) = true := by
        by_cases ha : a.id = acctD.id
        · refine ⟨b, by rw [hacc]; exact List.mem_cons_of_mem _ (List.mem_cons_self _ _), ?_⟩
          have : b.id ≠ acctD.id := fun hbd => hab (by rw [ha, hbd])
          simp [beq_eq_false_iff_ne.mpr this]
        · refine ⟨a, by rw [hacc]; exact List.mem_cons_self _ _, ?_⟩
          simp [beq_eq_false_iff_ne.mpr ha]
      have hfne : pd.accounts.filter (fun acc => !(acc.id == acctD.id)) ≠ [] := by
        obtain ⟨x, hx, hxid⟩ := hexists
        intro hnil
        have hmem : x ∈ pd.accounts.filter (fun acc => !(acc.id == acctD.id)) :=
          List.mem_filter.mpr ⟨hx, hxid⟩
        rw [hnil] at hmem
        cases hmem
      obtain ⟨first, rest', hfeq⟩ : ∃ f r,
          pd.accounts.filter (fun acc => !(acc.id == acctD.id)) = f :: r := by
        cases hh : pd.accounts.filter (fun acc => !(acc.id == acctD.id)) with
        | nil => exact absurd hh hfne
        | cons f r => exact ⟨f, r, rfl⟩
      have hres : handleDeleteAccount pd true acctD
          = ([(RemoteOp.deleteAccount acctD.id, true)],
             { accounts := first :: rest',
               transactions := eraseKey pd.transactions acctD.id,
               activeAccountId :=
                 if pd.activeAccountId = some acctD.id then some first.id
                 else pd.activeAccountId }) := by
        unfold handleDeleteAccount
        rw [if_neg hlen]
        simp only [Bool.true_eq_false, if_false]
        rw [hfeq]
      rw [hres]
      refine ⟨fun hl => absurd (hl ▸ le_rfl) hlen, by simp, ?_⟩
      intro a' ha'
      by_cases hactive : pd.activeAccountId = some acctD.id
      · rw [if_pos hactive] at ha'
        have : a' = first.id := by injection ha' with h; exact h.symm
        subst this
        simp
      · rw [if_neg hactive] at ha'
        have ha'' : a' ∈ pd.accounts.map Account.id := hact a' ha'
        have hane : a' ≠ acctD.id := by
          intro he
          exact hactive (by rw [ha', he])
        obtain ⟨x, hxmem, hxid⟩ := List.mem_map.mp ha''
        have hxf : x ∈ pd.accounts.filter (fun acc => !(acc.id == acctD.id)) := by
          apply List.mem_filter.mpr
          refine ⟨hxmem, ?_⟩
          simp [beq_eq_false_iff_ne.mpr (hxid ▸ hane)]
        rw [hfeq] at hxf
        exact List.mem_map.mpr ⟨x, hxf, hxid⟩

/-- C7 (witness): deleting the second of two accounts leaves a
nonempty account list. -/
theorem c7_delete_account_safety_witness :
    (handleDeleteAccount scenPd2 true scenAccount2).2.accounts ≠ [] :=
  (c7_delete_account_safety scenPd2 true scenAccount2 (by simp [scenPd2])
    (by simp [scenPd2, scenAccount, scenAccount2])
    (by
      intro a ha
      simp only [scenPd2] at ha
      injection ha with h
      simp [scenPd2, scenAccount, scenAccount2, ← h])).2.1

/-! ### C8: cache validation on load -/

/-- C8 (counterexample): a cached blob whose `transactions` field is
null is accepted by `loadOfflineData`, because in JavaScript
`typeof null === 'object'`; null is not a transactions map object. -/
theorem c8_counterexample :
    loadOfflineData (some nullTxBlob) = some nullTxBlob
    ∧ jGet nullTxBlob "transactions" = JValue.null
    ∧ jIsObjMap (jGet nullTxBlob "transactions") = false :=
  ⟨rfl, rfl, rfl⟩

/-- C8 (amended): the load path accepts a cached blob only unchanged
(no repair) and only when the validation holds — truthy root, an array
`accounts`, a `transactions` field of typeof "object" (which includes
null), and a truthy `activeAccountId`; every other blob, in particular
one missing `transactionsByAccount` (typeof "undefined"), is discarded
and the state is left unset; an absent or unparsable cache also leaves
the state unset. The function is total, so no input crashes it. -/
theorem c8_cache_validation (v w : JValue) :
    (loadOfflineData (some v) = some w → w = v ∧ validCache v = true)
    ∧ (validCache v = false → loadOfflineData (some v) = none)
    ∧ (jGet v "transactions" = JValue.undef → loadOfflineData (some v) = none)
    ∧ loadOfflineData none = none := by
  have hreject : validCache v = false → loadOfflineData (some v) = none := by
    intro h
    show (if validCache v = true then some v else none) = none
    rw [h]
    rfl
  refine ⟨?_, hreject, ?_, rfl⟩
  · intro h
    rw [show loadOfflineData (some v)
        = (if validCache v = true then some v else none) from rfl] at h
    by_cases hv : validCache v
    · rw [if_pos hv] at h
      injection h with h1
      exact ⟨h1.symm, hv⟩
    · rw [if_neg hv] at h
      cases h
  · intro h
    apply hreject
    unfold validCache
    rw [h]
    have hno : (jTypeof JValue.undef == "object") = false := rfl
    rw [hno]
    simp

/-- C8 (witness): a blob missing the transactions map is discarded. -/
theorem c8_cache_validation_witness :
    loadOfflineData (some missingTxBlob) = none :=
  (c8_cache_validation missingTxBlob JValue.null).2.2.1 rfl

end Portfolio








